import Mathlib

/-!
Verification of the SDFG translation core (mlir-dace-smith).

This file shallowly embeds the graph-construction and scope-resolution
engine of `src/lib/SDFG/Translate/Node.cpp`, the data-container and
tasklet serialization paths of `src/lib/SDFG/Translate/translateToSDFG.cpp`,
and settles the claims C1..C10 about them.

Modelling conventions:
- MLIR `Value`s are represented by their `utils::valueToString` key plus
  the information `StateImpl::lookup` extracts from the defining op.
- `ConnectorNode`s live in a global store (`G.store`); node identity is
  the store index (the C++ identity is the shared pointer).
- Scopes (`State`, `MapEntry`, `ConsumeEntry`) are frames; a chain of
  frames `[inner, ..., outermost]` models the parent chain, innermost
  first.  The mirroring of map-scope edges/nodes into the surrounding
  state's emission lists (`MapEntryImpl::addEdge/addNode` also registering
  with `parent.getState()`) is dropped: the claims are about the per-scope
  lists, and the mirror is a plain copy.
- `emitError` calls are modelled by incrementing an error counter.
-/

--------------------------------------------------------------------------------
-- Basic string helper (std::string::find on a pattern, used by Array::emit)
--------------------------------------------------------------------------------

/-- Whether the first list is an initial segment of the second. -/
def startsWithCh : List Char → List Char → Bool
  | [], _ => true
  | _ :: _, [] => false
  | a :: ps, b :: ss => a = b && startsWithCh ps ss

/-- Whether `p` occurs as a contiguous subsequence of `s`
(`std::string::find(p) != npos`). -/
def containsSeq (s p : List Char) : Bool :=
  if startsWithCh p s then true
  else
    match s with
    | [] => false
    | _ :: rest => containsSeq rest p

/-- `s.find(pat) != std::string::npos`. -/
def strContains (s pat : String) : Bool :=
  containsSeq s.data pat.data

--------------------------------------------------------------------------------
-- Connectors and nodes (Node.cpp / Node.h)
--------------------------------------------------------------------------------

/-- A memlet range `(start, end, step, tile)`; contents are opaque strings. -/
structure RangeM where
  lo : String
  hi : String
  step : String
  tile : String
deriving DecidableEq

/-- A connector: a named port on a parent `ConnectorNode`.  `parent` is the
store index of the owning node.  The single-argument C++ constructor
`Connector(ConnectorNode)` produces the null connector (`name = "null"`,
`isNull = true`). -/
structure Connector where
  parent : Nat
  name : String
  isNull : Bool
  data : String
  ranges : List RangeM
deriving DecidableEq

/-- `Connector(ConnectorNode parent)`: the null connector on a node. -/
def Connector.nullOn (p : Nat) : Connector :=
  { parent := p, name := "null", isNull := true, data := "", ranges := [] }

/-- The connector returned by `ScopeNodeImpl::lookup` after it dereferences
`lut.end()` on a missing key (undefined behaviour in the source; modelled as
a fixed junk value). -/
def Connector.junk : Connector :=
  { parent := 0, name := "", isNull := false, data := "", ranges := [] }

/-- Connector equality.  Modelled from the spec (`Node.h` is not part of the
repository snapshot): two connectors are equal iff same parent node and same
name. -/
def connEq (a b : Connector) : Bool :=
  a.parent = b.parent ∧ a.name = b.name

/-- Node kinds (`NType`). -/
inductive NType
  | access | tasklet | library | nested
  | mapEntry | mapExit | consumeEntry | consumeExit
  | stateN | sdfgN
deriving DecidableEq

/-- A `ConnectorNode`: named input/output connector lists plus the data
`StateImpl::lookup` and `MapEntryImpl::routeWrite` read back (name, init). -/
structure CNode where
  ty : NType
  name : String
  init : Bool
  inConns : List Connector
  outConns : List Connector
deriving DecidableEq

instance : Inhabited CNode :=
  ⟨{ ty := .access, name := "", init := false, inConns := [], outConns := [] }⟩

/-- A `MultiEdge` between two connectors. -/
structure MEdge where
  src : Connector
  dst : Connector
  dep : Bool
deriving DecidableEq

--------------------------------------------------------------------------------
-- ConnectorNodeImpl::addInConnector / addOutConnector
--------------------------------------------------------------------------------

/-- The scan loop of `ConnectorNodeImpl::addInConnector`: walk the existing
connectors; on a same-name same-parent entry, return early if it is equal
(`c == connector`), otherwise emit a conflict error and keep scanning.
Returns (found-equal, number of conflict errors emitted). -/
def addConnectorScan (c : Connector) : List Connector → Bool × Nat
  | [] => (false, 0)
  | e :: rest =>
    if e.name = c.name ∧ e.parent = c.parent then
      if connEq e c then (true, 0)
      else
        let r := addConnectorScan c rest
        (r.1, r.2 + 1)
    else addConnectorScan c rest

/-- `ConnectorNodeImpl::addInConnector` on the connector list: no-op when an
equal connector exists, otherwise the connector is appended (this happens in
the source even after a conflict error, since the loop falls through to the
`push_back`). -/
def addConnectorList (l : List Connector) (c : Connector) : List Connector × Nat :=
  let r := addConnectorScan c l
  (if r.1 then l else l ++ [c], r.2)

--------------------------------------------------------------------------------
-- Global translation state
--------------------------------------------------------------------------------

/-- Global state: the node store (identity = index) and the count of
diagnostics emitted via `emitError`. -/
structure G where
  store : List CNode
  errs : Nat
deriving DecidableEq

/-- `ConnectorNodeImpl::addInConnector` lifted to the store. -/
def G.addInConnector (g : G) (n : Nat) (c : Connector) : G :=
  let node := g.store.getD n default
  let r := addConnectorList node.inConns c
  { store := g.store.set n { node with inConns := r.1 }, errs := g.errs + r.2 }

/-- `ConnectorNodeImpl::addOutConnector` lifted to the store. -/
def G.addOutConnector (g : G) (n : Nat) (c : Connector) : G :=
  let node := g.store.getD n default
  let r := addConnectorList node.outConns c
  { store := g.store.set n { node with outConns := r.1 }, errs := g.errs + r.2 }

/-- Allocation of a fresh `ConnectorNode`; its id is `g.store.length`. -/
def G.newNode (g : G) (ty : NType) (name : String) (ini : Bool) : G :=
  { g with store := g.store ++ [{ ty := ty, name := name, init := ini,
                                  inConns := [], outConns := [] }] }

/-- The type of the node with store index `n`. -/
def tyOf (g : G) (n : Nat) : NType :=
  (g.store.getD n default).ty

--------------------------------------------------------------------------------
-- Scopes (ScopeNodeImpl / StateImpl / MapEntryImpl / ConsumeEntryImpl)
--------------------------------------------------------------------------------

/-- The three scope kinds sharing the `ScopeNode` contract. -/
inductive SKind
  | state | mapEntry | consumeEntry
deriving DecidableEq

/-- A scope frame: its lookup table, contained nodes, edges and
pending-write queue.  For map/consume scopes, `entryId`/`exitId` are the
store indices of the entry and exit nodes. -/
structure Frame where
  kind : SKind
  entryId : Nat
  exitId : Nat
  lut : List (String × Connector)
  nodeIds : List Nat
  edges : List MEdge
  writeQueue : List (Connector × Connector × String)
deriving DecidableEq

/-- Insert-or-replace into the lookup table (`lut.insert`; on failure
`res.first->second = connector`).  The same body implements
`ScopeNodeImpl::mapConnector`, `MapEntryImpl::mapConnector` and
`ConsumeEntryImpl::mapConnector`, which are textually identical. -/
def alInsertReplace (l : List (String × Connector)) (k : String) (c : Connector) :
    List (String × Connector) :=
  if l.any (fun p => p.1 = k) then
    l.map (fun p => if p.1 = k then (k, c) else p)
  else l ++ [(k, c)]

/-- `mapConnector(value, connector)` on a frame. -/
def Frame.mapConnector (f : Frame) (k : String) (c : Connector) : Frame :=
  { f with lut := alInsertReplace f.lut k c }

/-- `ScopeNodeImpl::lookup`: pure table lookup; on a missing key the source
emits an error and dereferences `lut.end()` (modelled as the junk
connector). -/
def ScopeNodeImpl.lookup (g : G) (f : Frame) (key : String) : Connector × G :=
  match f.lut.find? (fun p => p.1 = key) with
  | some p => (p.2, g)
  | none => (Connector.junk, { g with errs := g.errs + 1 })

/-- `edges.any(edge.getDestination().parent == node)`: whether `n` has an
incoming edge recorded in this scope. -/
def hasIncoming (f : Frame) (n : Nat) : Bool :=
  f.edges.any (fun e => e.dst.parent = n)

/-- `edges.any(edge.getSource().parent == node)`: whether `n` has an
outgoing edge recorded in this scope. -/
def hasOutgoing (f : Frame) (n : Nat) : Bool :=
  f.edges.any (fun e => e.src.parent = n)

--------------------------------------------------------------------------------
-- MLIR values as seen by StateImpl::lookup
--------------------------------------------------------------------------------

/-- What `StateImpl::lookup` reads off a value's defining op (`AllocOp`):
its optional symbol name and the `init` attribute.  Values whose defining op
is not an alloc would fail the `cast<AllocOp>`; the embedding restricts
values to block arguments (`alloc = none`) and alloc results. -/
structure AllocInfo where
  aname : Option String
  init : Bool
deriving DecidableEq

/-- A value: its `utils::valueToString` key and defining-op information. -/
structure MValue where
  key : String
  alloc : Option AllocInfo
deriving DecidableEq

/-- The container name `StateImpl::lookup` synthesizes:
`allocOp.getName().value_or(valueToString(value))`. -/
def StateImpl.lookupName (v : MValue) : String :=
  match v.alloc with
  | some a => a.aname.getD v.key
  | none => v.key

/-- The `init` flag `StateImpl::lookup` copies: `allocOp->hasAttr("init")`. -/
def StateImpl.lookupInit (v : MValue) : Bool :=
  match v.alloc with
  | some a => a.init
  | none => false

--------------------------------------------------------------------------------
-- Edge insertion (ScopeNode::addEdge dispatch)
--------------------------------------------------------------------------------

/-- `getState().addEdge(edge)`: record the edge in the nearest enclosing
state frame (used by `ConsumeEntryImpl::addEdge`, which keeps no local edge
list). -/
def addEdgeToState : List Frame → MEdge → List Frame
  | [], _ => []
  | f :: rest, e =>
    match f.kind with
    | .state => { f with edges := f.edges ++ [e] } :: rest
    | _ => f :: addEdgeToState rest e

theorem addEdgeToState_length (fs : List Frame) (e : MEdge) :
    (addEdgeToState fs e).length = fs.length := by
  induction fs with
  | nil => rfl
  | cons f rest ih =>
    cases hk : f.kind <;> simp [addEdgeToState, hk, ih]

/-- `ScopeNode::addEdge`: a state or map entry records the edge in its own
list (`MapEntryImpl::addEdge` also mirrors it into the surrounding state,
dropped here); a consume entry records it only in the surrounding state. -/
def ScopeNode.addEdge : List Frame → MEdge → List Frame
  | [], _ => []
  | f :: rest, e =>
    match f.kind with
    | .consumeEntry => f :: addEdgeToState rest e
    | _ => { f with edges := f.edges ++ [e] } :: rest

--------------------------------------------------------------------------------
-- ScopeNode::lookup (dispatching to StateImpl / MapEntryImpl /
-- ConsumeEntryImpl lookup), child-to-parent along the frame chain
--------------------------------------------------------------------------------

/-- `ScopeNode::lookup`.  The head frame is the current scope; the tail is
its parent chain.  Returns the connector plus the updated global state and
chain. -/
def ScopeNode.lookup : G → List Frame → MValue → Connector × G × List Frame
  | g, [], _ => (Connector.junk, g, [])
  | g, f :: rest, v =>
    match f.kind with
    | .state =>
      -- StateImpl::lookup: on a miss, synthesize an Access node bound to the
      -- container name; note the mapping is NOT cached (no mapConnector).
      match f.lut.find? (fun p => p.1 = v.key) with
      | some _ =>
        let r := ScopeNodeImpl.lookup g f v.key
        (r.1, r.2, f :: rest)
      | none =>
        let nm := StateImpl.lookupName v
        let nid := g.store.length
        let g1 := g.newNode NType.access nm (StateImpl.lookupInit v)
        let f1 := { f with nodeIds := f.nodeIds ++ [nid] }
        let accOut : Connector :=
          { parent := nid, name := "null", isNull := true, data := nm, ranges := [] }
        let g2 := g1.addOutConnector nid accOut
        (accOut, g2, f1 :: rest)
    | .mapEntry =>
      -- MapEntryImpl::lookup
      match f.lut.find? (fun p => p.1 = v.key) with
      | some _ =>
        let r := ScopeNodeImpl.lookup g f v.key
        (r.1, r.2, f :: rest)
      | none =>
        let r := ScopeNode.lookup g rest v
        let srcConn := r.1
        let dstConn : Connector :=
          { parent := f.entryId, name := "IN_" ++ v.key, isNull := false,
            data := srcConn.data, ranges := [] }
        let g2 := r.2.1.addInConnector f.entryId dstConn
        let rest2 := ScopeNode.addEdge r.2.2 (MEdge.mk srcConn dstConn false)
        let outConn : Connector :=
          { parent := f.entryId, name := "OUT_" ++ v.key, isNull := false,
            data := srcConn.data, ranges := srcConn.ranges }
        let g3 := g2.addOutConnector f.entryId outConn
        let f1 := f.mapConnector v.key outConn
        let r2 := ScopeNodeImpl.lookup g3 f1 v.key
        (r2.1, r2.2, f1 :: rest2)
    | .consumeEntry =>
      -- ConsumeEntryImpl::lookup
      match f.lut.find? (fun p => p.1 = v.key) with
      | some _ =>
        let r := ScopeNodeImpl.lookup g f v.key
        (r.1, r.2, f :: rest)
      | none =>
        let r := ScopeNode.lookup g rest v
        let srcConn := r.1
        let dstConn : Connector :=
          { parent := f.entryId, name := "IN_" ++ v.key, isNull := false,
            data := srcConn.data, ranges := srcConn.ranges }
        let g2 := r.2.1.addInConnector f.entryId dstConn
        let rest2 := ScopeNode.addEdge r.2.2 (MEdge.mk srcConn dstConn false)
        let outConn : Connector :=
          { parent := f.entryId, name := "OUT_" ++ v.key, isNull := false,
            data := dstConn.data, ranges := dstConn.ranges }
        let g3 := g2.addOutConnector f.entryId outConn
        let f1 := f.mapConnector v.key outConn
        let r2 := ScopeNodeImpl.lookup g3 f1 v.key
        (r2.1, r2.2, f1 :: rest2)

--------------------------------------------------------------------------------
-- ScopeNode::routeWrite dispatch
--------------------------------------------------------------------------------

/-- `ScopeNode::routeWrite(from, to, mapValue)` on the frame chain.
A `State` resolves immediately (`ScopeNodeImpl::routeWrite`); a `MapEntry`
creates an intermediate Access node inside the scope and queues the write
(`MapEntryImpl::routeWrite`); a `ConsumeEntry` routes out immediately
through its exit (`ConsumeEntryImpl::routeWrite`, FIXME in the source). -/
def ScopeNode.routeWriteGo : Nat → G → List Frame → Connector → Connector → String →
    G × List Frame
  | _, g, [], _, _, _ => (g, [])
  | 0, g, fs, _, _, _ => (g, fs)
  | fuel + 1, g, f :: rest, frm, toC, v =>
    match f.kind with
    | .state =>
      let f1 := { f with nodeIds := f.nodeIds ++ [toC.parent] }
      let f2 := { f1 with edges := f1.edges ++ [MEdge.mk frm toC false] }
      let out : Connector :=
        { parent := toC.parent, name := "null", isNull := true, data := toC.data, ranges := [] }
      let g1 := g.addOutConnector toC.parent out
      let f3 := f2.mapConnector v out
      (g1, f3 :: rest)
    | .mapEntry =>
      let toNode := g.store.getD toC.parent default
      let nid := g.store.length
      let g1 := g.newNode NType.access toNode.name toNode.init
      let accIn : Connector :=
        { parent := nid, name := "null", isNull := true, data := toC.data, ranges := toC.ranges }
      let g2 := g1.addInConnector nid accIn
      let f1 := { f with nodeIds := f.nodeIds ++ [nid] }
      let f2 := { f1 with edges := f1.edges ++ [MEdge.mk frm accIn false] }
      let accOut : Connector :=
        { parent := nid, name := "null", isNull := true, data := toC.data, ranges := [] }
      let g3 := g2.addOutConnector nid accOut
      let f3 := f2.mapConnector v accOut
      let f4 := { f3 with writeQueue := f3.writeQueue ++ [(accOut, { toC with ranges := [] }, v)] }
      (g3, f4 :: rest)
    | .consumeEntry =>
      let exitNode := g.store.getD f.exitId default
      let inC : Connector :=
        { parent := f.exitId, name := "IN_" ++ toString exitNode.inConns.length,
          isNull := false, data := frm.data, ranges := frm.ranges }
      let g1 := g.addInConnector f.exitId inC
      let rest1 := addEdgeToState rest (MEdge.mk frm inC false)
      let exitNode1 := g1.store.getD f.exitId default
      let outC : Connector :=
        { parent := f.exitId, name := "OUT_" ++ toString exitNode1.outConns.length,
          isNull := false, data := inC.data, ranges := inC.ranges }
      let g2 := g1.addOutConnector f.exitId outC
      let r := ScopeNode.routeWriteGo fuel g2 rest1 outC toC v
      (r.1, f :: r.2)

/-- `ScopeNode::routeWrite`: the fuel is the chain length (each recursive
call strips exactly one frame, and `addEdgeToState` preserves length, so
the fuel never runs out). -/
def ScopeNode.routeWrite (g : G) (fs : List Frame) (frm toC : Connector) (v : String) :
    G × List Frame :=
  ScopeNode.routeWriteGo fs.length g fs frm toC v

--------------------------------------------------------------------------------
-- MapEntryImpl::routeOut / connectDanglingNodes
--------------------------------------------------------------------------------

/-- `MapEntryImpl::routeOut`: add an `IN_<v>`/`OUT_<v>` connector pair on the
map exit, wire `from → exit.IN_<v>` in this scope, and hand
`(exit.OUT_<v>, to, v)` to the parent scope's `routeWrite`. -/
def MapEntryImpl.routeOut (g : G) (f : Frame) (rest : List Frame)
    (frm toC : Connector) (v : String) : G × Frame × List Frame :=
  let inC : Connector :=
    { parent := f.exitId, name := "IN_" ++ v, isNull := false, data := frm.data, ranges := [] }
  let g1 := g.addInConnector f.exitId inC
  let f1 := { f with edges := f.edges ++ [MEdge.mk frm inC false] }
  let outC : Connector :=
    { parent := f.exitId, name := "OUT_" ++ v, isNull := false,
      data := frm.data, ranges := frm.ranges }
  let g2 := g1.addOutConnector f.exitId outC
  let r := ScopeNode.routeWrite g2 rest outC toC v
  (r.1, f1, r.2)

/-- The pending-write flush loop of `MapEntryImpl::connectDanglingNodes`:
a queued write whose source node already has an outgoing edge in this scope
is skipped (shadowed); otherwise it is routed out. -/
def MapEntryImpl.flushQueue (g : G) (f : Frame) (rest : List Frame) :
    List (Connector × Connector × String) → G × Frame × List Frame
  | [] => (g, f, rest)
  | (frm, toC, v) :: qs =>
    if hasOutgoing f frm.parent then
      MapEntryImpl.flushQueue g f rest qs
    else
      let r := MapEntryImpl.routeOut g f rest frm toC v
      MapEntryImpl.flushQueue r.1 r.2.1 r.2.2 qs

/-- The third loop of `connectDanglingNodes`: every contained node without
an incoming edge (except exit-kind nodes) gets a null in-connector wired
from the entry's null connector. -/
def MapEntryImpl.wireIns (g : G) (f : Frame) (entryNull : Connector) :
    List Nat → G × Frame
  | [] => (g, f)
  | n :: ns =>
    if hasIncoming f n ∨ tyOf g n = NType.consumeExit ∨ tyOf g n = NType.mapExit then
      MapEntryImpl.wireIns g f entryNull ns
    else
      let c := Connector.nullOn n
      let g1 := g.addInConnector n c
      let f1 := { f with edges := f.edges ++ [MEdge.mk entryNull c false] }
      MapEntryImpl.wireIns g1 f1 entryNull ns

/-- The fourth loop of `connectDanglingNodes`: every contained node without
an outgoing edge (except entry-kind nodes) gets a null out-connector wired
to the exit's null connector. -/
def MapEntryImpl.wireOuts (g : G) (f : Frame) (exitNull : Connector) :
    List Nat → G × Frame
  | [] => (g, f)
  | n :: ns =>
    if hasOutgoing f n ∨ tyOf g n = NType.consumeEntry ∨ tyOf g n = NType.mapEntry then
      MapEntryImpl.wireOuts g f exitNull ns
    else
      let c := Connector.nullOn n
      let g1 := g.addOutConnector n c
      let f1 := { f with edges := f.edges ++ [MEdge.mk c exitNull false] }
      MapEntryImpl.wireOuts g1 f1 exitNull ns

/-- The pending-write flush pass over the scope's queue. -/
def closeFlush (gS : G) (fS : Frame) (rest : List Frame) : G × Frame × List Frame :=
  MapEntryImpl.flushQueue gS fS rest fS.writeQueue

/-- The incoming-edge auto-wiring pass over the scope's nodes. -/
def closeWireIns (en : Connector) (t : G × Frame × List Frame) : G × Frame :=
  MapEntryImpl.wireIns t.1 t.2.1 en t.2.1.nodeIds

/-- The outgoing-edge auto-wiring pass over the scope's nodes. -/
def closeWireOuts (ex : Connector) (t : G × Frame) : G × Frame :=
  MapEntryImpl.wireOuts t.1 t.2 ex t.2.nodeIds

/-- `MapEntryImpl::connectDanglingNodes`: wire entry to exit through null
connectors, flush the pending-write queue, then auto-wire nodes without
incoming/outgoing edges. -/
def MapEntryImpl.connectDanglingNodes (g : G) (f : Frame) (rest : List Frame) :
    G × Frame × List Frame :=
  let entryNull := Connector.nullOn f.entryId
  let g1 := g.addOutConnector f.entryId entryNull
  let exitNull := Connector.nullOn f.exitId
  let g2 := g1.addOutConnector f.exitId exitNull
  let f1 := { f with edges := f.edges ++ [MEdge.mk entryNull exitNull false] }
  let r := closeFlush g2 f1 rest
  let r2 := closeWireIns entryNull r
  let r3 := closeWireOuts exitNull r2
  (r3.1, r3.2, r.2.2)

--------------------------------------------------------------------------------
-- Array::emit (Node.cpp): container kind selection and stride derivation
--------------------------------------------------------------------------------

/-- One factor of a stride product expression: a dimension that is either a
compile-time integer or a named symbol.  The source builds the product as a
string (`strideList.back() + " * " + x`); factors render to the same string
via `renderFacts`. -/
inductive SFact
  | intF (n : Int)
  | symF (s : String)
deriving DecidableEq

/-- Product value of a stride expression over its integer factors. -/
def factProd (fs : List SFact) : Int :=
  fs.foldl (fun acc f => match f with | SFact.intF n => acc * n | SFact.symF _ => acc) 1

/-- A data container as `Array::emit` sees it: name, flags and the
`ArrayType` shape (a list of booleans selecting, per dimension, an entry of
`integers` or of `symbols`).  `elemType` is the already-stringified dtype. -/
structure ArrayM where
  name : String
  transient : Bool
  stream : Bool
  shape : List Bool
  integers : List Int
  symbols : List String
  elemType : String
deriving DecidableEq

/-- The running state of the shape/stride loop in `Array::emit`.  Each
stride entry is kept both as the accumulated string (exactly as the source
builds it) and as its factor list, so that its numeric value is
accessible. -/
structure StrideSt where
  intIdx : Nat
  symIdx : Nat
  intStrideIdx : Nat
  symStrideIdx : Nat
  shapeEntries : List String
  strideList : List (String × List SFact)
deriving DecidableEq

/-- The shape/stride loop of `Array::emit`: emit each dimension into the
shape list; from the second dimension on, extend the last stride expression
by the next dimension taken from the back of the integer (resp. symbol)
list, selected by the kind of the current dimension. -/
def ArrayM.emitLoop (a : ArrayM) : List Bool → Bool → StrideSt → StrideSt
  | [], _, st => st
  | b :: bs, isFirst, st =>
    if b then
      let entry := toString (a.integers.getD st.intIdx 0)
      let st1 :=
        if isFirst then
          { st with shapeEntries := st.shapeEntries ++ [entry], intIdx := st.intIdx + 1 }
        else
          let last := st.strideList.getLastD ("", [])
          let n := a.integers.getD st.intStrideIdx 0
          { st with
            shapeEntries := st.shapeEntries ++ [entry],
            strideList := st.strideList ++
              [(last.1 ++ " * " ++ toString n, last.2 ++ [SFact.intF n])],
            intStrideIdx := st.intStrideIdx - 1,
            intIdx := st.intIdx + 1 }
      ArrayM.emitLoop a bs false st1
    else
      let entry := a.symbols.getD st.symIdx ""
      let st1 :=
        if isFirst then
          { st with shapeEntries := st.shapeEntries ++ [entry], symIdx := st.symIdx + 1 }
        else
          let last := st.strideList.getLastD ("", [])
          let sy := a.symbols.getD st.symStrideIdx ""
          { st with
            shapeEntries := st.shapeEntries ++ [entry],
            strideList := st.strideList ++
              [(last.1 ++ " * " ++ sy, last.2 ++ [SFact.symF sy])],
            symStrideIdx := st.symStrideIdx - 1,
            symIdx := st.symIdx + 1 }
      ArrayM.emitLoop a bs false st1

/-- The final loop state for a container (`strideList` starts as `{"1"}`). -/
def ArrayM.strideState (a : ArrayM) : StrideSt :=
  ArrayM.emitLoop a a.shape true
    { intIdx := 0, symIdx := 0,
      intStrideIdx := a.integers.length - 1, symStrideIdx := a.symbols.length - 1,
      shapeEntries := [], strideList := [("1", [SFact.intF 1])] }

/-- The strides list as `Array::emit` prints it: the accumulated stride
expression strings in reverse order. -/
def ArrayM.emittedStrides (a : ArrayM) : List String :=
  (ArrayM.strideState a).strideList.reverse.map Prod.fst

/-- The stride expressions (as factor lists) in emission order. -/
def ArrayM.emittedStrideFactors (a : ArrayM) : List (List SFact) :=
  (ArrayM.strideState a).strideList.reverse.map Prod.snd

/-- JSON emission events (the `JsonEmitter` calls made by `emit`). -/
inductive JE
  | objStart (name : String)
  | kv (k v : String)
  | listStart (name : String)
  | entry (s : String)
  | listEnd
  | objEnd
deriving DecidableEq

/-- `Array::emit`: the full emission sequence.  The container kind is
`Stream` for streams, else `Scalar` for an empty shape whose name does not
contain `"arg"` (the `FIXME` string check in the source), else `Array`;
strides are only emitted for non-empty shapes. -/
def ArrayM.emit (a : ArrayM) : List JE :=
  let isArg := strContains a.name "arg"
  let st := ArrayM.strideState a
  [JE.objStart a.name]
  ++ [JE.kv "type"
        (if a.stream then "Stream"
         else if a.shape.isEmpty ∧ ¬ (isArg = true) then "Scalar"
         else "Array")]
  ++ [JE.objStart "attributes"]
  ++ [JE.kv "transient" (if a.transient then "true" else "false")]
  ++ [JE.kv "dtype" a.elemType]
  ++ [JE.listStart "shape"]
  ++ (if a.shape.isEmpty then [JE.entry "1"] else [])
  ++ st.shapeEntries.map JE.entry
  ++ [JE.listEnd]
  ++ (if a.shape.isEmpty then []
      else [JE.listStart "strides"] ++ a.emittedStrides.map JE.entry ++ [JE.listEnd])
  ++ [JE.objEnd, JE.objEnd]

/-- The value of the first `"type"` key emitted for a container. -/
def emittedTypeKV (a : ArrayM) : Option String :=
  a.emit.findSome? (fun e =>
    match e with
    | JE.kv k s => if k = "type" then some s else none
    | _ => none)

--------------------------------------------------------------------------------
-- Legacy serializer (translateToSDFG.cpp): buildStrideList / printStrides
--------------------------------------------------------------------------------

/-- The loop body of `buildStrideList(ArrayType)`: one entry per dimension,
the dimension itself (integer or symbol), in order. -/
def buildStrideListGo (a : ArrayM) : List Bool → Nat → Nat → List String
  | [], _, _ => []
  | b :: bs, intIdx, symIdx =>
    if b then toString (a.integers.getD intIdx 0) :: buildStrideListGo a bs (intIdx + 1) symIdx
    else a.symbols.getD symIdx "" :: buildStrideListGo a bs intIdx (symIdx + 1)

/-- `buildStrideList(ArrayType)` of the legacy serializer. -/
def buildStrideList (a : ArrayM) : List String :=
  buildStrideListGo a a.shape 0 0

/-- `printStrides`: prints `strides[size-1] ... strides[1]` followed by the
literal `1`. -/
def printStrides (strides : List String) : List String :=
  (strides.drop 1).reverse ++ ["1"]

/-- Row-major strides, as the spec words them: the rightmost dimension has
stride 1 and each dimension's stride is the product of all dimensions to its
right. -/
def rowMajorStrides : List Int → List Int
  | [] => []
  | _ :: ds => ds.foldl (fun x y => x * y) 1 :: rowMajorStrides ds

--------------------------------------------------------------------------------
-- Tasklet translation (translateToSDFG.cpp, translateToSDFG(TaskletNode&))
--------------------------------------------------------------------------------

/-- The operation kinds the local `liftToPython(TaskletNode&, JsonEmitter&)`
lifter distinguishes; `other` is any unhandled kind. -/
inductive OpKind
  | addF | addI | mulF | mulI
  | constF (val : String) | constI (val : Int) | constIdx (val : Int) | constOther
  | indexCast | storeK | loadK | symE (expr : String) | ret
  | other
deriving DecidableEq

/-- A body operation: its kind and its printed form (`oper.print`). -/
structure MOp where
  kind : OpKind
  text : String
deriving DecidableEq

/-- A tasklet as the translator sees it: tasklet-level connector names,
block-argument names/types for the fallback header, result types, result
count and the body. -/
structure TaskletM where
  inputNames : List String
  numResults : Nat
  args : List (String × String)
  resultTypes : List String
  body : List MOp
deriving DecidableEq

/-- The local `liftToPython(TaskletNode&, JsonEmitter&)` of
`translateToSDFG.cpp`: fails for bodies with more than two operations,
otherwise dispatches on the first operation; every success emits a Python
expression over the tasklet connector names.  Returns the `string_data` it
would print, or `none` on failure.  (An empty body dereferences a null
pointer in the source; modelled as failure.) -/
def liftToPython (t : TaskletM) : Option String :=
  if t.body.length > 2 then none
  else
    match t.body.head? with
    | none => none
    | some f =>
      match f.kind with
      | .addF | .addI =>
        some ("__out = " ++ t.inputNames.getD 0 "" ++ " + "
              ++ t.inputNames.getD (t.inputNames.length - 1) "")
      | .mulF | .mulI =>
        some ("__out = " ++ t.inputNames.getD 0 "" ++ " * "
              ++ t.inputNames.getD (t.inputNames.length - 1) "")
      | .constF val => some ("__out = " ++ val)
      | .constI val => some ("__out = " ++ toString val)
      | .constIdx val => some ("__out = " ++ toString val)
      | .constOther => some ("__out = ")
      | .indexCast => some ("__out = " ++ t.inputNames.getD 0 "")
      | .storeK =>
        some ("__out[" ++ String.intercalate ", " (t.inputNames.take (t.inputNames.length - 1))
              ++ "] = " ++ t.inputNames.getD (t.inputNames.length - 1) "")
      | .loadK =>
        some ("__out = " ++ t.inputNames.getD (t.inputNames.length - 1) ""
              ++ "[" ++ String.intercalate ", " (t.inputNames.take (t.inputNames.length - 1)) ++ "]")
      | .symE expr => some ("__out = " ++ expr)
      | .ret => some ("__out = " ++ t.inputNames.getD 0 "")
      | .other => none

/-- The argument list of the MLIR fallback header: `name: type`, comma
separated. -/
def mlirArgList (t : TaskletM) : String :=
  String.intercalate ", " (t.args.map (fun p => p.1 ++ ": " ++ p.2))

/-- The fallback body text: each operation printed verbatim followed by a
literal `\n` escape; `sdfg.return` is rewritten to `return` (the printed
form of a return contains the token once, so replacing every occurrence
matches the source's replace-first). -/
def mlirBodyText (t : TaskletM) : String :=
  String.join (t.body.map (fun o =>
    (if o.kind = OpKind.ret then o.text.replace "sdfg.return" "return" else o.text) ++ "\\n"))

/-- The full MLIR fallback code string built when lifting fails: the body
wrapped in `func @mlir_entry` inside a module. -/
def mlirCode (t : TaskletM) : String :=
  "module \x7b\\n func @mlir_entry(" ++ mlirArgList t ++ ") -> "
    ++ String.join t.resultTypes ++ " \x7b\\n" ++ mlirBodyText t ++ "\x7d\\n\x7d"

/-- The escaping loop applied to the fallback code: prefix every backslash
and double quote with a backslash. -/
def escapeCode (s : String) : String :=
  String.mk (s.data.foldl (fun acc c =>
    if c = '\\' ∨ c = '"' then acc ++ ['\\', c] else acc ++ [c]) [])

/-- The `code` object of a translated tasklet plus the final result of
`translateToSDFG(TaskletNode&)` (which fails only for more than one return
value, after the code object was already emitted). -/
structure TaskCodeRes where
  codeData : String
  codeLang : String
  ok : Bool
deriving DecidableEq

/-- `translateToSDFG(TaskletNode&, JsonEmitter&)`, restricted to the `code`
object and the success result: a successful lift is emitted under the
`Python` language tag; a failed lift falls back to the escaped MLIR text of
the body under the `MLIR` tag.  Translation succeeds in either case unless
the tasklet has more than one result. -/
def translateTasklet (t : TaskletM) : TaskCodeRes :=
  match liftToPython t with
  | some s => { codeData := s, codeLang := "Python", ok := t.numResults ≤ 1 }
  | none => { codeData := escapeCode (mlirCode t), codeLang := "MLIR", ok := t.numResults ≤ 1 }

--------------------------------------------------------------------------------
-- List helpers
--------------------------------------------------------------------------------

theorem getD_append_length (l : List CNode) (x d : CNode) :
    (l ++ [x]).getD l.length d = x := by
  induction l with
  | nil => rfl
  | cons a as ih => simp [ih]

theorem set_append_length (l : List CNode) (x y : CNode) :
    (l ++ [x]).set l.length y = l ++ [y] := by
  induction l with
  | nil => rfl
  | cons a as ih => simp [ih]

--------------------------------------------------------------------------------
-- Lookup-table lemmas
--------------------------------------------------------------------------------

theorem find_map_replace (l : List (String × Connector)) (k : String) (c : Connector)
    (h : l.any (fun p => p.1 = k) = true) :
    (l.map (fun p => if p.1 = k then (k, c) else p)).find? (fun p => p.1 = k) = some (k, c) := by
  induction l with
  | nil => simp at h
  | cons p ps ih =>
    by_cases hp : p.1 = k
    · simp [List.find?, hp]
    · have h2 : (ps.any fun q => decide (q.1 = k)) = true := by
        simp only [List.any_cons, Bool.or_eq_true, decide_eq_true_eq] at h
        rcases h with h | h
        · exact absurd h hp
        · exact h
      simp [List.find?, hp, ih h2]

theorem find_append_single (l : List (String × Connector)) (k : String) (c : Connector)
    (h : l.any (fun p => p.1 = k) = false) :
    (l ++ [(k, c)]).find? (fun p => p.1 = k) = some (k, c) := by
  induction l with
  | nil => simp [List.find?]
  | cons p ps ih =>
    have hp : ¬ p.1 = k := by
      intro hk
      simp [List.any_cons, hk] at h
    have h2 : (ps.any fun q => decide (q.1 = k)) = false := by
      simp only [List.any_cons, Bool.or_eq_false_iff] at h
      exact h.2
    simp [List.find?, hp, ih h2]

theorem find_alInsertReplace (l : List (String × Connector)) (k : String) (c : Connector) :
    (alInsertReplace l k c).find? (fun p => p.1 = k) = some (k, c) := by
  unfold alInsertReplace
  by_cases h : l.any (fun p => p.1 = k) = true
  · rw [if_pos h]; exact find_map_replace l k c h
  · rw [if_neg h]
    exact find_append_single l k c (Bool.eq_false_iff.mpr h)

/-- `ScopeNodeImpl::lookup` on a present key is a pure read. -/
theorem ScopeNodeImpl.lookup_found (g : G) (f : Frame) (key : String)
    (p : String × Connector) (h : f.lut.find? (fun q => q.1 = key) = some p) :
    ScopeNodeImpl.lookup g f key = (p.2, g) := by
  simp [ScopeNodeImpl.lookup, h]

/-- `ScopeNode::lookup` on a scope whose table already maps the value is a
pure read for every scope kind. -/
theorem ScopeNode.lookup_hit (g : G) (f : Frame) (rest : List Frame) (v : MValue)
    (p : String × Connector) (h : f.lut.find? (fun q => q.1 = v.key) = some p) :
    ScopeNode.lookup g (f :: rest) v = (p.2, g, f :: rest) := by
  cases hk : f.kind <;>
    simp [ScopeNode.lookup, hk, h, ScopeNodeImpl.lookup]

--------------------------------------------------------------------------------
-- C10
--------------------------------------------------------------------------------

/-- C10: `mapConnector` silently replaces an existing mapping (last write
wins): it is a pure table update with no error path, and a subsequent
`lookup` of the value in the same scope — whatever its kind — returns the
most recently mapped connector without touching the graph. -/
theorem C10_mapConnector_last_write_wins (g : G) (f : Frame) (rest : List Frame)
    (v : MValue) (c : Connector) :
    (f.mapConnector v.key c).lut.find? (fun p => p.1 = v.key) = some (v.key, c)
    ∧ ScopeNode.lookup g (f.mapConnector v.key c :: rest) v
        = (c, g, f.mapConnector v.key c :: rest) := by
  have h : (f.mapConnector v.key c).lut.find? (fun p => p.1 = v.key) = some (v.key, c) := by
    simpa [Frame.mapConnector] using find_alInsertReplace f.lut v.key c
  exact ⟨h, ScopeNode.lookup_hit g _ rest v (v.key, c) h⟩

--------------------------------------------------------------------------------
-- C4
--------------------------------------------------------------------------------

def c4existing : Connector :=
  { parent := 0, name := "x", isNull := false, data := "a", ranges := [] }

def c4conflicting : Connector :=
  { parent := 0, name := "x", isNull := false, data := "b", ranges := [] }

/-- C4 counterexample: inserting a connector that conflicts with an existing
same-name same-parent connector (different bound data) is NOT a reported
fatal error: since connector equality compares only parent and name, the
conflicting definition is silently discarded — no diagnostic is emitted and
the list is unchanged. -/
theorem C4_counterexample_conflict_silently_dropped :
    c4existing ≠ c4conflicting
    ∧ c4existing.name = c4conflicting.name
    ∧ c4existing.parent = c4conflicting.parent
    ∧ addConnectorList [c4existing] c4conflicting = ([c4existing], 0) := by
  refine ⟨by decide, rfl, rfl, ?_⟩
  decide

theorem addConnectorScan_parent_uniform (c : Connector) (p : Nat) (hc : c.parent = p) :
    ∀ l : List Connector, (∀ e ∈ l, e.parent = p) →
      addConnectorScan c l = (l.any (fun e => e.name = c.name), 0) := by
  intro l
  induction l with
  | nil => intro _; rfl
  | cons e es ih =>
    intro hl
    have hep : e.parent = p := hl e (by simp)
    have hrec := ih (fun x hx => hl x (by simp [hx]))
    by_cases hname : e.name = c.name
    · have : connEq e c = true := by
        simp [connEq, hname, hep, hc]
      simp [addConnectorScan, hname, hep, hc, this]
    · simp [addConnectorScan, hname, hrec]

/-- C4 amended: provided every connector in the list is owned by the node it
sits on (true at every call site), name-uniqueness of the input/output
connector lists is preserved by `addInConnector`/`addOutConnector`; adding
any connector whose name already occurs — equal or conflicting — is a
silent no-op (equality ignores the bound data and subset, so a conflicting
definition is dropped without a diagnostic), and no error is ever
emitted. -/
theorem C4_amended_connector_uniqueness (l : List Connector) (c : Connector) (p : Nat)
    (hl : ∀ e ∈ l, e.parent = p) (hc : c.parent = p)
    (hnd : (l.map Connector.name).Nodup) :
    ((addConnectorList l c).1.map Connector.name).Nodup
    ∧ (addConnectorList l c).2 = 0
    ∧ ((∃ e ∈ l, e.name = c.name) → addConnectorList l c = (l, 0)) := by
  have hscan := addConnectorScan_parent_uniform c p hc l hl
  by_cases hany : l.any (fun e => e.name = c.name) = true
  · refine ⟨?_, ?_, ?_⟩
    · simp [addConnectorList, hscan, hany, hnd]
    · simp [addConnectorList, hscan]
    · intro _; simp [addConnectorList, hscan, hany]
  · have hany' : l.any (fun e => e.name = c.name) = false := by
      simpa using hany
    have hnotin : c.name ∉ l.map Connector.name := by
      intro hmem
      rcases List.mem_map.mp hmem with ⟨e, he, hen⟩
      exact hany (List.any_eq_true.mpr ⟨e, he, by simp [hen]⟩)
    have heq : addConnectorList l c = (l ++ [c], 0) := by
      simp [addConnectorList, hscan, hany']
    refine ⟨?_, ?_, ?_⟩
    · rw [heq]
      simp only [List.map_append]
      rw [List.nodup_append]
      refine ⟨hnd, by simp, ?_⟩
      intro a ha hb
      simp only [List.map_cons, List.map_nil, List.mem_singleton] at hb
      subst hb
      exact hnotin ha
    · simp [addConnectorList, hscan]
    · intro ⟨e, he, hen⟩
      exact absurd (List.any_eq_true.mpr ⟨e, he, by simp [hen]⟩) hany

/-- Witness for the amended C4 theorem at a concrete node: the connector
list `[c4existing]` is parent-uniform and name-unique, and re-adding a
same-name connector is a silent no-op. -/
theorem C4_amended_connector_uniqueness_witness :
    (∀ e ∈ [c4existing], e.parent = 0) ∧ c4conflicting.parent = 0
    ∧ (([c4existing].map Connector.name).Nodup)
    ∧ addConnectorList [c4existing] c4conflicting = ([c4existing], 0) := by
  refine ⟨by decide, rfl, by decide, ?_⟩
  exact (C4_amended_connector_uniqueness [c4existing] c4conflicting 0
    (by decide) rfl (by decide)).2.2 ⟨c4existing, by decide, rfl⟩

--------------------------------------------------------------------------------
-- C6
--------------------------------------------------------------------------------

/-- A rank-3 container with purely integer dimensions `[d0, d1, d2]`. -/
def mkIntArr3 (d0 d1 d2 : Int) : ArrayM :=
  { name := "A", transient := false, stream := false,
    shape := [true, true, true], integers := [d0, d1, d2], symbols := [],
    elemType := "int32" }

/-- C6 counterexample: the legacy serializer (`buildStrideList` +
`printStrides` in `translateToSDFG.cpp`) does not derive row-major strides.
`buildStrideList` returns the dimensions themselves, and `printStrides`
emits them shifted and reversed: for shape `[2, 3, 4]` the emitted stride
list is `["4", "3", "1"]`, while the claimed row-major strides
`[d1*d2, d2, 1]` are `[12, 4, 1]`. -/
theorem C6_counterexample_legacy_strides_not_row_major :
    printStrides (buildStrideList (mkIntArr3 2 3 4)) = ["4", "3", "1"]
    ∧ rowMajorStrides [2, 3, 4] = [12, 4, 1]
    ∧ printStrides (buildStrideList (mkIntArr3 2 3 4)) ≠ ["12", "4", "1"] := by
  refine ⟨?_, by decide, by decide⟩
  decide

/-- C6 amended: the new-IR serializer (`Array::emit` in `Node.cpp`) does
derive row-major strides for an all-integer rank-3 shape `[d0, d1, d2]`: it
emits the product expressions `"1 * d2 * d1"`, `"1 * d2"`, `"1"`, whose
numeric values are `[d1*d2, d2, 1]`; the legacy serializer
(`buildStrideList`/`printStrides` in `translateToSDFG.cpp`) instead emits
the dimensions shifted, `[d2, d1, 1]`, which is not row-major. -/
theorem C6_amended_strides (d0 d1 d2 : Int) :
    (mkIntArr3 d0 d1 d2).emittedStrides
      = ["1" ++ " * " ++ toString d2 ++ " * " ++ toString d1,
         "1" ++ " * " ++ toString d2, "1"]
    ∧ ((mkIntArr3 d0 d1 d2).emittedStrideFactors.map factProd) = [d1 * d2, d2, 1]
    ∧ printStrides (buildStrideList (mkIntArr3 d0 d1 d2))
      = [toString d2, toString d1, "1"] := by
  refine ⟨?_, ?_, ?_⟩
  · simp [ArrayM.emittedStrides, ArrayM.strideState, ArrayM.emitLoop, mkIntArr3,
      List.getLastD, List.getLast]
  · simp [ArrayM.emittedStrideFactors, ArrayM.strideState, ArrayM.emitLoop, mkIntArr3,
      List.getLastD, List.getLast, factProd]
    ring_nf
  · simp [printStrides, buildStrideList, buildStrideListGo, mkIntArr3]

--------------------------------------------------------------------------------
-- C9
--------------------------------------------------------------------------------

/-- C9: the emitted container kind is `Stream` for stream containers;
otherwise, for an empty shape, it is `Array` exactly when the container's
name contains the substring `"arg"` and `Scalar` otherwise — the kind
depends on the name string. -/
theorem C9_container_kind_selection (a : ArrayM) :
    (a.stream = true → emittedTypeKV a = some "Stream")
    ∧ (a.stream = false → a.shape = [] →
        emittedTypeKV a
          = some (if strContains a.name "arg" then "Array" else "Scalar")) := by
  constructor
  · intro h
    simp [emittedTypeKV, ArrayM.emit, h]
  · intro hs hsh
    by_cases harg : strContains a.name "arg" = true
    · simp [emittedTypeKV, ArrayM.emit, hs, hsh, harg]
    · have harg' : strContains a.name "arg" = false := by simpa using harg
      simp [emittedTypeKV, ArrayM.emit, hs, hsh, harg']

def scalarNoArg : ArrayM :=
  { name := "tmp0", transient := false, stream := false,
    shape := [], integers := [], symbols := [], elemType := "int32" }

/-- Witness for C9 at concrete containers: an empty-shape container named
`"tmp0"` is emitted as `Scalar`, the same container renamed `"arg0"` as
`Array`, and a stream container as `Stream`. -/
theorem C9_container_kind_selection_witness :
    emittedTypeKV scalarNoArg = some "Scalar"
    ∧ emittedTypeKV { scalarNoArg with name := "arg0" } = some "Array"
    ∧ emittedTypeKV { scalarNoArg with stream := true } = some "Stream" := by
  refine ⟨?_, ?_, ?_⟩
  · have h := (C9_container_kind_selection scalarNoArg).2 rfl rfl
    simpa using h
  · have h := (C9_container_kind_selection { scalarNoArg with name := "arg0" }).2 rfl rfl
    simpa using h
  · exact (C9_container_kind_selection { scalarNoArg with stream := true }).1 rfl

--------------------------------------------------------------------------------
-- C8
--------------------------------------------------------------------------------

/-- C8: lifting failure is non-fatal.  For a tasklet with at most one
result, a failed lift emits the tasklet body as escaped MLIR text (the
operations printed verbatim, wrapped in an `mlir_entry` function) under the
`MLIR` language tag, and a successful lift emits the produced expression
under the `Python` tag; translation succeeds in both cases. -/
theorem C8_tasklet_lift_fallback (t : TaskletM) (h : t.numResults ≤ 1) :
    (liftToPython t = none →
      translateTasklet t
        = { codeData := escapeCode (mlirCode t), codeLang := "MLIR", ok := true })
    ∧ (∀ s, liftToPython t = some s →
      translateTasklet t = { codeData := s, codeLang := "Python", ok := true }) := by
  constructor
  · intro hl
    simp [translateTasklet, hl, h]
  · intro s hl
    simp [translateTasklet, hl, h]

/-- A tasklet whose single body operation has no lifting rule. -/
def unliftableTasklet : TaskletM :=
  { inputNames := ["_in0"], numResults := 1, args := [("%arg0", "i32")],
    resultTypes := ["i32"],
    body := [{ kind := OpKind.other, text := "%0 = math.sqrt %arg0 : i32" }] }

/-- Witness for C8: the unliftable tasklet fails to lift and its code falls
back to the escaped MLIR text under the `MLIR` tag, with translation
succeeding. -/
theorem C8_tasklet_lift_fallback_witness :
    unliftableTasklet.numResults ≤ 1
    ∧ liftToPython unliftableTasklet = none
    ∧ translateTasklet unliftableTasklet
        = { codeData := escapeCode (mlirCode unliftableTasklet),
            codeLang := "MLIR", ok := true } := by
  refine ⟨by decide, rfl, ?_⟩
  exact (C8_tasklet_lift_fallback unliftableTasklet (by decide)).1 rfl

--------------------------------------------------------------------------------
-- routeWrite characterizations (shared by C2 and C3)
--------------------------------------------------------------------------------

/-- The connector `ScopeNodeImpl::routeWrite` adds on the target access node
and caches for the written value. -/
def stateRouteOutConn (toC : Connector) : Connector :=
  { parent := toC.parent, name := "null", isNull := true, data := toC.data, ranges := [] }

/-- The in connector of the intermediate access node created by
`MapEntryImpl::routeWrite` (a fresh node, id `g.store.length`). -/
def mapRouteAccInC (g : G) (toC : Connector) : Connector :=
  { parent := g.store.length, name := "null", isNull := true,
    data := toC.data, ranges := toC.ranges }

/-- The out connector of that intermediate access node (source of the
queued write). -/
def mapRouteAccOutC (g : G) (toC : Connector) : Connector :=
  { parent := g.store.length, name := "null", isNull := true,
    data := toC.data, ranges := [] }

/-- `ScopeNodeImpl::routeWrite` (chain headed by a `State`): the write is
resolved immediately with exactly one edge `from → to`, the target node is
added to the state, and the written value is remapped; the rest of the
chain is untouched. -/
theorem ScopeNode.routeWrite_state_eq (g : G) (s : Frame) (rs : List Frame)
    (frm toC : Connector) (v : String) (hk : s.kind = SKind.state) :
    ScopeNode.routeWrite g (s :: rs) frm toC v =
      (g.addOutConnector toC.parent (stateRouteOutConn toC),
       { s with nodeIds := s.nodeIds ++ [toC.parent],
                edges := s.edges ++ [MEdge.mk frm toC false],
                lut := alInsertReplace s.lut v (stateRouteOutConn toC) } :: rs) := by
  simp [ScopeNode.routeWrite, ScopeNode.routeWriteGo, hk, Frame.mapConnector, stateRouteOutConn]

/-- `MapEntryImpl::routeWrite` (chain headed by a `MapEntry`): an
intermediate access node is created inside the scope, one intra-scope edge
`from → access` is added, and the write is queued with the destination
subset cleared; no other frame changes. -/
theorem ScopeNode.routeWrite_map_eq (g : G) (m : Frame) (rs : List Frame)
    (frm toC : Connector) (v : String) (hk : m.kind = SKind.mapEntry) :
    ScopeNode.routeWrite g (m :: rs) frm toC v =
      (((g.newNode NType.access (g.store.getD toC.parent default).name
            (g.store.getD toC.parent default).init).addInConnector
          g.store.length (mapRouteAccInC g toC)).addOutConnector
          g.store.length (mapRouteAccOutC g toC),
       { m with nodeIds := m.nodeIds ++ [g.store.length],
                edges := m.edges ++ [MEdge.mk frm (mapRouteAccInC g toC) false],
                lut := alInsertReplace m.lut v (mapRouteAccOutC g toC),
                writeQueue := m.writeQueue
                  ++ [(mapRouteAccOutC g toC, { toC with ranges := [] }, v)] } :: rs) := by
  simp [ScopeNode.routeWrite, ScopeNode.routeWriteGo, hk, Frame.mapConnector,
    mapRouteAccInC, mapRouteAccOutC]

/-- The `IN_<k>` connector `ConsumeEntryImpl::routeWrite` adds on the
consume exit. -/
def consumeRouteInC (g : G) (f : Frame) (frm : Connector) : Connector :=
  { parent := f.exitId,
    name := "IN_" ++ toString (g.store.getD f.exitId default).inConns.length,
    isNull := false, data := frm.data, ranges := frm.ranges }

/-- The matching `OUT_<k>` connector (counted after the in connector was
added). -/
def consumeRouteOutC (g : G) (f : Frame) (frm : Connector) : Connector :=
  { parent := f.exitId,
    name := "OUT_" ++ toString
      (((g.addInConnector f.exitId (consumeRouteInC g f frm)).store.getD
          f.exitId default).outConns.length),
    isNull := false, data := frm.data, ranges := frm.ranges }

/-- `ConsumeEntryImpl::routeWrite`: the write is routed out immediately —
an `IN_*`/`OUT_*` pair on the consume exit, an edge into the surrounding
state, and an immediate recursive `routeWrite` on the parent chain.  The
consume frame itself (its pending-write queue included) is unchanged. -/
theorem ScopeNode.routeWrite_consume_eq (g : G) (cf : Frame) (rs : List Frame)
    (frm toC : Connector) (v : String) (hk : cf.kind = SKind.consumeEntry) :
    ScopeNode.routeWrite g (cf :: rs) frm toC v =
      ((ScopeNode.routeWrite
          ((g.addInConnector cf.exitId (consumeRouteInC g cf frm)).addOutConnector
            cf.exitId (consumeRouteOutC g cf frm))
          (addEdgeToState rs (MEdge.mk frm (consumeRouteInC g cf frm) false))
          (consumeRouteOutC g cf frm) toC v).1,
       cf :: (ScopeNode.routeWrite
          ((g.addInConnector cf.exitId (consumeRouteInC g cf frm)).addOutConnector
            cf.exitId (consumeRouteOutC g cf frm))
          (addEdgeToState rs (MEdge.mk frm (consumeRouteInC g cf frm) false))
          (consumeRouteOutC g cf frm) toC v).2) := by
  simp [ScopeNode.routeWrite, ScopeNode.routeWriteGo, hk, consumeRouteInC, consumeRouteOutC,
    addEdgeToState_length]

--------------------------------------------------------------------------------
-- C3
--------------------------------------------------------------------------------

/-- A consume-exit node, a target access node and a tasklet, for the C3
counterexample. -/
def c3ExitNode : CNode :=
  { ty := .consumeExit, name := "cx", init := false, inConns := [], outConns := [] }
def c3Target : CNode :=
  { ty := .access, name := "A", init := false, inConns := [], outConns := [] }
def c3Task : CNode :=
  { ty := .tasklet, name := "T", init := false, inConns := [], outConns := [] }
def c3G : G := { store := [c3ExitNode, c3Target, c3Task], errs := 0 }
def c3Consume : Frame :=
  { kind := .consumeEntry, entryId := 3, exitId := 0, lut := [],
    nodeIds := [2], edges := [], writeQueue := [] }
def c3State : Frame :=
  { kind := .state, entryId := 0, exitId := 0, lut := [],
    nodeIds := [1], edges := [], writeQueue := [] }
def c3From : Connector :=
  { parent := 2, name := "__out", isNull := false, data := "", ranges := [] }
def c3To : Connector :=
  { parent := 1, name := "null", isNull := true, data := "A", ranges := [] }

/-- The result of `routeWrite` on the consume scope. -/
def c3Run : G × List Frame :=
  ScopeNode.routeWrite c3G [c3Consume, c3State] c3From c3To "w"

/-- C3 counterexample: calling `routeWrite` on a `ConsumeEntry` scope does
NOT queue the write and does create edges leaving the scope before the
scope is closed: the consume frame's pending-write queue stays empty and
the surrounding state immediately receives the edge into the consume
exit's fresh `IN_0` connector and the edge from its `OUT_0` connector to
the outer target. -/
theorem C3_counterexample_consume_routes_immediately :
    (c3Run.2.headD c3Consume).writeQueue = []
    ∧ c3Run.2.headD c3Consume = c3Consume
    ∧ (c3Run.2.getD 1 c3State).edges =
        [MEdge.mk c3From { parent := 0, name := "IN_0", isNull := false, data := "", ranges := [] } false,
         MEdge.mk { parent := 0, name := "OUT_0", isNull := false, data := "", ranges := [] } c3To false] := by
  refine ⟨?_, ?_, ?_⟩ <;> decide

/-- C3 amended: `routeWrite` on a `MapEntry` queues the write — as the
triple `(accessOut, to, writtenValue)` whose source is the out connector of
a fresh intermediate access node wired from `from` inside the scope, with
the destination connector's subset cleared — and changes no outer frame
(no edge leaves the scope until it is closed).  On a `ConsumeEntry`
(`FIXME` in the source), the write is instead routed out immediately
through a fresh `IN_*`/`OUT_*` pair on the consume exit and handed at once
to the parent scope's `routeWrite`, with nothing queued. -/
theorem C3_amended_routeWrite_queueing (g : G) (f : Frame) (rs : List Frame)
    (frm toC : Connector) (v : String) :
    (f.kind = SKind.mapEntry →
      (ScopeNode.routeWrite g (f :: rs) frm toC v).2
        = { f with nodeIds := f.nodeIds ++ [g.store.length],
                   edges := f.edges ++ [MEdge.mk frm (mapRouteAccInC g toC) false],
                   lut := alInsertReplace f.lut v (mapRouteAccOutC g toC),
                   writeQueue := f.writeQueue
                     ++ [(mapRouteAccOutC g toC, { toC with ranges := [] }, v)] } :: rs)
    ∧ (f.kind = SKind.consumeEntry →
      (ScopeNode.routeWrite g (f :: rs) frm toC v).2
        = f :: (ScopeNode.routeWrite
            ((g.addInConnector f.exitId (consumeRouteInC g f frm)).addOutConnector
              f.exitId (consumeRouteOutC g f frm))
            (addEdgeToState rs (MEdge.mk frm (consumeRouteInC g f frm) false))
            (consumeRouteOutC g f frm) toC v).2) := by
  constructor
  · intro hk
    rw [ScopeNode.routeWrite_map_eq g f rs frm toC v hk]
  · intro hk
    rw [ScopeNode.routeWrite_consume_eq g f rs frm toC v hk]

/-- Witness for the amended C3 theorem: the map branch applied to a
concrete map scope queues exactly the cleared-subset triple; the consume
branch applied to the concrete consume scope of the counterexample. -/
theorem C3_amended_routeWrite_queueing_witness :
    c3Consume.kind = SKind.consumeEntry
    ∧ (ScopeNode.routeWrite c3G [c3Consume, c3State] c3From c3To "w").2
        = c3Consume :: (ScopeNode.routeWrite
            ((c3G.addInConnector c3Consume.exitId (consumeRouteInC c3G c3Consume c3From)).addOutConnector
              c3Consume.exitId (consumeRouteOutC c3G c3Consume c3From))
            (addEdgeToState [c3State] (MEdge.mk c3From (consumeRouteInC c3G c3Consume c3From) false))
            (consumeRouteOutC c3G c3Consume c3From) c3To "w").2 := by
  exact ⟨rfl, (C3_amended_routeWrite_queueing c3G c3Consume [c3State] c3From c3To "w").2 rfl⟩

--------------------------------------------------------------------------------
-- C2
--------------------------------------------------------------------------------

/-- The in connector `MapEntryImpl::routeOut` adds on the map exit. -/
def MapEntryImpl.routeOutInC (f : Frame) (frm : Connector) (v : String) : Connector :=
  { parent := f.exitId, name := "IN_" ++ v, isNull := false, data := frm.data, ranges := [] }

/-- The matching out connector, carrying the source's data and subset. -/
def MapEntryImpl.routeOutOutC (f : Frame) (frm : Connector) (v : String) : Connector :=
  { parent := f.exitId, name := "OUT_" ++ v, isNull := false,
    data := frm.data, ranges := frm.ranges }

/-- C2 amended: at scope close, a queued write whose source node already
has an outgoing edge inside the scope is dropped without any effect; an
unconsumed one is routed out — exactly one edge `from → exit.IN_<v>` is
added in the closing scope, a fresh `IN_<v>`/`OUT_<v>` pair appears on the
exit, and `(exit.OUT_<v>, to, v)` is handed to the parent's `routeWrite`.
A `State` parent absorbs the hand-off with exactly one edge; a `MapEntry`
parent instead records one arrival edge into a fresh intermediate access
node and re-queues the write — so an intermediate map level receives two
edges for the write (arrival and route-out), not one. -/
theorem C2_amended_write_flush_routing (g : G) (f : Frame) (rest : List Frame)
    (frm toC : Connector) (v : String) :
    (hasOutgoing f frm.parent = true →
        MapEntryImpl.flushQueue g f rest [(frm, toC, v)] = (g, f, rest))
    ∧ (hasOutgoing f frm.parent = false →
        MapEntryImpl.flushQueue g f rest [(frm, toC, v)]
          = MapEntryImpl.routeOut g f rest frm toC v
        ∧ (MapEntryImpl.routeOut g f rest frm toC v).2.1.edges
          = f.edges ++ [MEdge.mk frm (MapEntryImpl.routeOutInC f frm v) false]
        ∧ (MapEntryImpl.routeOut g f rest frm toC v).2.2
          = (ScopeNode.routeWrite
              ((g.addInConnector f.exitId (MapEntryImpl.routeOutInC f frm v)).addOutConnector
                f.exitId (MapEntryImpl.routeOutOutC f frm v))
              rest (MapEntryImpl.routeOutOutC f frm v) toC v).2)
    ∧ (∀ (s : Frame) (rs : List Frame) (g2 : G) (frm2 toC2 : Connector) (v2 : String),
        s.kind = SKind.state →
        (ScopeNode.routeWrite g2 (s :: rs) frm2 toC2 v2).2
          = { s with nodeIds := s.nodeIds ++ [toC2.parent],
                     edges := s.edges ++ [MEdge.mk frm2 toC2 false],
                     lut := alInsertReplace s.lut v2 (stateRouteOutConn toC2) } :: rs)
    ∧ (∀ (m : Frame) (rs : List Frame) (g2 : G) (frm2 toC2 : Connector) (v2 : String),
        m.kind = SKind.mapEntry →
        (ScopeNode.routeWrite g2 (m :: rs) frm2 toC2 v2).2
          = { m with nodeIds := m.nodeIds ++ [g2.store.length],
                     edges := m.edges ++ [MEdge.mk frm2 (mapRouteAccInC g2 toC2) false],
                     lut := alInsertReplace m.lut v2 (mapRouteAccOutC g2 toC2),
                     writeQueue := m.writeQueue
                       ++ [(mapRouteAccOutC g2 toC2, { toC2 with ranges := [] }, v2)] } :: rs) := by
  refine ⟨?_, ?_, ?_, ?_⟩
  · intro h
    simp [MapEntryImpl.flushQueue, h]
  · intro h
    refine ⟨?_, ?_, ?_⟩
    · simp [MapEntryImpl.flushQueue, h]
    · simp [MapEntryImpl.routeOut, MapEntryImpl.routeOutInC]
    · simp [MapEntryImpl.routeOut, MapEntryImpl.routeOutInC, MapEntryImpl.routeOutOutC]
  · intro s rs g2 frm2 toC2 v2 hk
    have h := ScopeNode.routeWrite_state_eq g2 s rs frm2 toC2 v2 hk
    exact congrArg Prod.snd h
  · intro m rs g2 frm2 toC2 v2 hk
    have h := ScopeNode.routeWrite_map_eq g2 m rs frm2 toC2 v2 hk
    exact congrArg Prod.snd h

-- The C2 counterexample scenario: two nested maps inside a state.  A write
-- is queued in the inner map and consumed nowhere; both maps are then
-- closed.
def c2Task : CNode :=
  { ty := .tasklet, name := "T", init := false, inConns := [], outConns := [] }
def c2Entry2 : CNode :=
  { ty := .mapEntry, name := "e2", init := false, inConns := [], outConns := [] }
def c2Exit2 : CNode :=
  { ty := .mapExit, name := "x2", init := false, inConns := [], outConns := [] }
def c2Entry1 : CNode :=
  { ty := .mapEntry, name := "e1", init := false, inConns := [], outConns := [] }
def c2Exit1 : CNode :=
  { ty := .mapExit, name := "x1", init := false, inConns := [], outConns := [] }
def c2Target : CNode :=
  { ty := .access, name := "A", init := false, inConns := [], outConns := [] }
def c2G : G :=
  { store := [c2Task, c2Entry2, c2Exit2, c2Entry1, c2Exit1, c2Target], errs := 0 }
def c2Inner : Frame :=
  { kind := .mapEntry, entryId := 1, exitId := 2, lut := [],
    nodeIds := [0], edges := [], writeQueue := [] }
def c2Outer : Frame :=
  { kind := .mapEntry, entryId := 3, exitId := 4, lut := [],
    nodeIds := [], edges := [], writeQueue := [] }
def c2State : Frame :=
  { kind := .state, entryId := 0, exitId := 0, lut := [],
    nodeIds := [5], edges := [], writeQueue := [] }
def c2From : Connector :=
  { parent := 0, name := "__out", isNull := false, data := "", ranges := [] }
def c2To : Connector :=
  { parent := 5, name := "null", isNull := true, data := "A", ranges := [] }

/-- Queue the write at depth 2, close the inner map, then close the outer
map; the final triple is (global state, outer-map frame, [state frame]). -/
def c2Run : G × Frame × List Frame :=
  let r1 := ScopeNode.routeWrite c2G [c2Inner, c2Outer, c2State] c2From c2To "v"
  let r2 := MapEntryImpl.connectDanglingNodes r1.1 (r1.2.headD c2Inner) r1.2.tail
  MapEntryImpl.connectDanglingNodes r2.1 (r2.2.2.headD c2Outer) r2.2.2.tail

/-- C2 counterexample: a write queued at nesting depth 2 and consumed
nowhere does NOT produce exactly one edge per scope level.  The
intermediate map level receives two write edges — the arrival edge
`exit2.OUT_v → access` recorded when the inner close re-queued the write,
and the route-out edge `access → exit1.IN_v` from its own close — while
the absorbing state receives one. -/
theorem C2_counterexample_two_edges_at_middle_level :
    ((ScopeNode.routeWrite c2G [c2Inner, c2Outer, c2State] c2From c2To "v").2.headD
        c2Inner).writeQueue.length = 1
    ∧ c2Outer.edges = []
    ∧ (c2Run.2.1.edges.filter (fun e => ¬ (e.src.isNull ∧ e.dst.isNull))).length = 2
    ∧ (c2Run.2.2.headD c2State).edges.length = 1 := by
  refine ⟨?_, rfl, ?_, ?_⟩ <;> decide

/-- Witness for the amended C2 theorem: the route case applied to the inner
map of the counterexample scenario with its queued write. -/
theorem C2_amended_write_flush_routing_witness :
    hasOutgoing { c2Inner with edges := [MEdge.mk (Connector.nullOn 1) (Connector.nullOn 2) false] }
        (mapRouteAccOutC c2G c2To).parent = false
    ∧ MapEntryImpl.flushQueue c2G
        { c2Inner with edges := [MEdge.mk (Connector.nullOn 1) (Connector.nullOn 2) false] }
        [c2Outer, c2State] [(mapRouteAccOutC c2G c2To, c2To, "v")]
      = MapEntryImpl.routeOut c2G
        { c2Inner with edges := [MEdge.mk (Connector.nullOn 1) (Connector.nullOn 2) false] }
        [c2Outer, c2State] (mapRouteAccOutC c2G c2To) c2To "v" := by
  refine ⟨by decide, ?_⟩
  exact ((C2_amended_write_flush_routing c2G
    { c2Inner with edges := [MEdge.mk (Connector.nullOn 1) (Connector.nullOn 2) false] }
    [c2Outer, c2State] (mapRouteAccOutC c2G c2To) c2To "v").2.1 (by decide)).1

--------------------------------------------------------------------------------
-- C1
--------------------------------------------------------------------------------

/-- `MapEntryImpl::lookup` on a miss returns the freshly created `OUT_`
connector and caches it: the head frame of the result chain is the original
frame with exactly that mapping added. -/
theorem ScopeNode.lookup_map_miss (g : G) (f : Frame) (rest : List Frame) (v : MValue)
    (hk : f.kind = SKind.mapEntry)
    (hfind : f.lut.find? (fun q => q.1 = v.key) = none) :
    ∃ c g2 rest2,
      ScopeNode.lookup g (f :: rest) v = (c, g2, f.mapConnector v.key c :: rest2) := by
  simp only [ScopeNode.lookup, hk, hfind, ScopeNodeImpl.lookup, Frame.mapConnector,
    find_alInsertReplace]
  exact ⟨_, _, _, rfl⟩

/-- `ConsumeEntryImpl::lookup` on a miss, likewise. -/
theorem ScopeNode.lookup_consume_miss (g : G) (f : Frame) (rest : List Frame) (v : MValue)
    (hk : f.kind = SKind.consumeEntry)
    (hfind : f.lut.find? (fun q => q.1 = v.key) = none) :
    ∃ c g2 rest2,
      ScopeNode.lookup g (f :: rest) v = (c, g2, f.mapConnector v.key c :: rest2) := by
  simp only [ScopeNode.lookup, hk, hfind, ScopeNodeImpl.lookup, Frame.mapConnector,
    find_alInsertReplace]
  exact ⟨_, _, _, rfl⟩

/-- C1 amended: `lookup` is idempotent on `MapEntry` and `ConsumeEntry`
scopes (the miss path caches its result), and on a `State` scope only when
the value is already mapped: in those cases a second `lookup` returns the
identical connector and leaves the graph, the diagnostics and every scope
table unchanged.  A `State` lookup of an unmapped value is NOT idempotent:
it synthesizes a fresh Access node on every call (see the
counterexample). -/
theorem C1_amended_lookup_idempotent (g : G) (f : Frame) (rest : List Frame) (v : MValue)
    (h : f.kind = SKind.mapEntry ∨ f.kind = SKind.consumeEntry
         ∨ (∃ p, f.lut.find? (fun q => q.1 = v.key) = some p)) :
    ScopeNode.lookup (ScopeNode.lookup g (f :: rest) v).2.1
        (ScopeNode.lookup g (f :: rest) v).2.2 v
      = ScopeNode.lookup g (f :: rest) v := by
  have cachedCase :
      ∀ (c : Connector) (g2 : G) (rest2 : List Frame),
        ScopeNode.lookup g (f :: rest) v = (c, g2, f.mapConnector v.key c :: rest2) →
        ScopeNode.lookup (ScopeNode.lookup g (f :: rest) v).2.1
            (ScopeNode.lookup g (f :: rest) v).2.2 v
          = ScopeNode.lookup g (f :: rest) v := by
    intro c g2 rest2 heq
    rw [heq]
    have hfind2 : (f.mapConnector v.key c).lut.find? (fun q => q.1 = v.key)
        = some (v.key, c) := by
      simpa [Frame.mapConnector] using find_alInsertReplace f.lut v.key c
    simpa using
      ScopeNode.lookup_hit g2 (f.mapConnector v.key c) rest2 v (v.key, c) hfind2
  have hitCase :
      ∀ p, f.lut.find? (fun q => q.1 = v.key) = some p →
        ScopeNode.lookup (ScopeNode.lookup g (f :: rest) v).2.1
            (ScopeNode.lookup g (f :: rest) v).2.2 v
          = ScopeNode.lookup g (f :: rest) v := by
    intro p hp
    rw [ScopeNode.lookup_hit g f rest v p hp]
    exact ScopeNode.lookup_hit g f rest v p hp
  rcases h with hk | hk | ⟨p, hp⟩
  · cases hfind : f.lut.find? (fun q => q.1 = v.key) with
    | some p => exact hitCase p hfind
    | none =>
      obtain ⟨c, g2, rest2, heq⟩ := ScopeNode.lookup_map_miss g f rest v hk hfind
      exact cachedCase c g2 rest2 heq
  · cases hfind : f.lut.find? (fun q => q.1 = v.key) with
    | some p => exact hitCase p hfind
    | none =>
      obtain ⟨c, g2, rest2, heq⟩ := ScopeNode.lookup_consume_miss g f rest v hk hfind
      exact cachedCase c g2 rest2 heq
  · exact hitCase p hp

-- Concrete scenario for the C1 counterexample and witness.
def c1G : G := { store := [], errs := 0 }
def c1State : Frame :=
  { kind := .state, entryId := 0, exitId := 0, lut := [],
    nodeIds := [], edges := [], writeQueue := [] }
def c1V : MValue := { key := "v0", alloc := none }

/-- C1 counterexample: on a `State` scope, looking up an unmapped value
twice returns two different connectors (on two distinct, freshly
synthesized Access nodes) and the second call adds a node to the graph —
`StateImpl::lookup` never caches the synthesized mapping. -/
theorem C1_counterexample_state_lookup_not_cached :
    (ScopeNode.lookup (ScopeNode.lookup c1G [c1State] c1V).2.1
        (ScopeNode.lookup c1G [c1State] c1V).2.2 c1V).1
      ≠ (ScopeNode.lookup c1G [c1State] c1V).1
    ∧ (ScopeNode.lookup c1G [c1State] c1V).2.1.store.length = 1
    ∧ (ScopeNode.lookup (ScopeNode.lookup c1G [c1State] c1V).2.1
        (ScopeNode.lookup c1G [c1State] c1V).2.2 c1V).2.1.store.length = 2 := by
  refine ⟨?_, ?_, ?_⟩ <;> decide

def c1MapEntryNode : CNode :=
  { ty := .mapEntry, name := "me", init := false, inConns := [], outConns := [] }
def c1MapG : G := { store := [c1MapEntryNode], errs := 0 }
def c1Map : Frame :=
  { kind := .mapEntry, entryId := 0, exitId := 0, lut := [],
    nodeIds := [], edges := [], writeQueue := [] }
def c1StateMapped : Frame :=
  { kind := .state, entryId := 0, exitId := 0,
    lut := [("v0", { parent := 0, name := "null", isNull := true, data := "A", ranges := [] })],
    nodeIds := [], edges := [], writeQueue := [] }

/-- Witness for the amended C1 theorem: a map scope (over a state that maps
the value) satisfies the hypothesis, and the second lookup is a fixed
point. -/
theorem C1_amended_lookup_idempotent_witness :
    c1Map.kind = SKind.mapEntry
    ∧ ScopeNode.lookup (ScopeNode.lookup c1MapG [c1Map, c1StateMapped] c1V).2.1
        (ScopeNode.lookup c1MapG [c1Map, c1StateMapped] c1V).2.2 c1V
      = ScopeNode.lookup c1MapG [c1Map, c1StateMapped] c1V :=
  ⟨rfl, C1_amended_lookup_idempotent c1MapG c1Map [c1StateMapped] c1V (Or.inl rfl)⟩

--------------------------------------------------------------------------------
-- C7
--------------------------------------------------------------------------------

/-- C7 amended: missing-producer lookups are not fatal.  (a) A `State`
lookup of an unmapped value never reports anything: it silently synthesizes
a fresh Access node named after the value (or its alloc), returns its out
connector, and does not cache the mapping — the diagnostic count is
unchanged and translation continues.  (b) The generic
`ScopeNodeImpl::lookup` does report a diagnostic on a missing key — with
location context, as the one `emitError` in it — but it does not abort:
it returns an (invalid) connector and translation continues. -/
theorem C7_amended_missing_lookup_not_fatal (g : G) (f : Frame) (rest : List Frame)
    (v : MValue) (key : String)
    (hk : f.kind = SKind.state)
    (hfind : f.lut.find? (fun q => q.1 = v.key) = none) :
    ((ScopeNode.lookup g (f :: rest) v).2.1.errs = g.errs
     ∧ (ScopeNode.lookup g (f :: rest) v).2.1.store.length = g.store.length + 1
     ∧ (ScopeNode.lookup g (f :: rest) v).1.data = StateImpl.lookupName v
     ∧ ((ScopeNode.lookup g (f :: rest) v).2.2.headD f).lut = f.lut
     ∧ tyOf (ScopeNode.lookup g (f :: rest) v).2.1 g.store.length = NType.access)
    ∧ (f.lut.find? (fun q => q.1 = key) = none →
        (ScopeNodeImpl.lookup g f key).2.errs = g.errs + 1) := by
  constructor
  · simp only [ScopeNode.lookup, hk, hfind]
    refine ⟨?_, ?_, ?_, ?_, ?_⟩ <;>
      simp [G.addOutConnector, G.newNode, getD_append_length, set_append_length,
        addConnectorList, addConnectorScan, tyOf]
  · intro hmiss
    simp [ScopeNodeImpl.lookup, hmiss]

/-- Witness for the amended C7 theorem at the concrete state scope of the
C1 counterexample: no diagnostic, one synthesized node, data bound to the
value's name, table unchanged; and the generic lookup on the missing key
reports one diagnostic. -/
theorem C7_amended_missing_lookup_not_fatal_witness :
    c1State.kind = SKind.state
    ∧ c1State.lut.find? (fun q => q.1 = c1V.key) = none
    ∧ (ScopeNode.lookup c1G [c1State] c1V).2.1.errs = 0
    ∧ (ScopeNode.lookup c1G [c1State] c1V).2.1.store.length = 1
    ∧ (ScopeNodeImpl.lookup c1G c1State "v0").2.errs = 1 := by
  have h := C7_amended_missing_lookup_not_fatal c1G c1State [] c1V "v0" rfl rfl
  exact ⟨rfl, rfl, h.1.1, h.1.2.1, h.2 rfl⟩

--------------------------------------------------------------------------------
-- C5: stability and monotonicity lemmas
--------------------------------------------------------------------------------

theorem getD_set_cnode (l : List CNode) (n m : Nat) (x : CNode) :
    (l.set n x).getD m default
      = if n = m ∧ n < l.length then x else l.getD m default := by
  induction l generalizing n m with
  | nil => simp
  | cons a as ih =>
    cases n with
    | zero =>
      cases m with
      | zero => simp
      | succ k => simp
    | succ j =>
      cases m with
      | zero => simp
      | succ k =>
        simp only [List.set, List.getD_cons_succ, List.length_cons, ih j k]
        by_cases h : j = k ∧ j < as.length
        · rw [if_pos h, if_pos ⟨by omega, by omega⟩]
        · rw [if_neg h, if_neg (by omega)]

theorem tyOf_addInConnector (g : G) (n : Nat) (c : Connector) (m : Nat) :
    tyOf (g.addInConnector n c) m = tyOf g m := by
  unfold tyOf G.addInConnector
  simp only [getD_set_cnode]
  split
  · rename_i h
    rw [← h.1]
  · rfl

theorem tyOf_addOutConnector (g : G) (n : Nat) (c : Connector) (m : Nat) :
    tyOf (g.addOutConnector n c) m = tyOf g m := by
  unfold tyOf G.addOutConnector
  simp only [getD_set_cnode]
  split
  · rename_i h
    rw [← h.1]
  · rfl

theorem tyOf_append_access (l : List CNode) (x : CNode) (hx : x.ty = NType.access)
    (m : Nat) : ((l ++ [x]).getD m default).ty = (l.getD m default).ty := by
  induction l generalizing m with
  | nil =>
    cases m with
    | zero => simpa using hx
    | succ k => cases k <;> simp
  | cons a as ih =>
    cases m with
    | zero => simp
    | succ k => simpa using ih k

theorem tyOf_newNode_access (g : G) (nm : String) (ini : Bool) (m : Nat) :
    tyOf (g.newNode NType.access nm ini) m = tyOf g m := by
  unfold tyOf G.newNode
  exact tyOf_append_access g.store _ rfl m

theorem tyOf_routeWriteGo (fuel : Nat) :
    ∀ (g : G) (fs : List Frame) (frm toC : Connector) (v : String) (m : Nat),
      tyOf (ScopeNode.routeWriteGo fuel g fs frm toC v).1 m = tyOf g m := by
  induction fuel with
  | zero =>
    intro g fs frm toC v m
    cases fs <;> rfl
  | succ k ih =>
    intro g fs frm toC v m
    cases fs with
    | nil => rfl
    | cons f rest =>
      cases hk : f.kind <;>
        simp [ScopeNode.routeWriteGo, hk, tyOf_addInConnector, tyOf_addOutConnector,
          tyOf_newNode_access, ih]

theorem tyOf_routeWrite (g : G) (fs : List Frame) (frm toC : Connector) (v : String)
    (m : Nat) : tyOf (ScopeNode.routeWrite g fs frm toC v).1 m = tyOf g m :=
  tyOf_routeWriteGo fs.length g fs frm toC v m

theorem tyOf_routeOut (g : G) (f : Frame) (rest : List Frame) (frm toC : Connector)
    (v : String) (m : Nat) :
    tyOf (MapEntryImpl.routeOut g f rest frm toC v).1 m = tyOf g m := by
  simp [MapEntryImpl.routeOut, tyOf_addInConnector, tyOf_addOutConnector, tyOf_routeWrite]

theorem tyOf_flushQueue (qs : List (Connector × Connector × String)) :
    ∀ (g : G) (f : Frame) (rest : List Frame) (m : Nat),
      tyOf (MapEntryImpl.flushQueue g f rest qs).1 m = tyOf g m := by
  induction qs with
  | nil => intro g f rest m; rfl
  | cons q qs ih =>
    intro g f rest m
    obtain ⟨frm, toC, v⟩ := q
    unfold MapEntryImpl.flushQueue
    split
    · exact ih g f rest m
    · rw [ih, tyOf_routeOut]

theorem tyOf_wireIns (ns : List Nat) :
    ∀ (g : G) (f : Frame) (c : Connector) (m : Nat),
      tyOf (MapEntryImpl.wireIns g f c ns).1 m = tyOf g m := by
  induction ns with
  | nil => intro g f c m; rfl
  | cons n ns ih =>
    intro g f c m
    unfold MapEntryImpl.wireIns
    split
    · exact ih g f c m
    · rw [ih, tyOf_addInConnector]

theorem flushQueue_nodeIds (qs : List (Connector × Connector × String)) :
    ∀ (g : G) (f : Frame) (rest : List Frame),
      (MapEntryImpl.flushQueue g f rest qs).2.1.nodeIds = f.nodeIds := by
  induction qs with
  | nil => intro g f rest; rfl
  | cons q qs ih =>
    intro g f rest
    obtain ⟨frm, toC, v⟩ := q
    unfold MapEntryImpl.flushQueue
    split
    · exact ih g f rest
    · rw [ih]
      rfl

theorem wireIns_nodeIds (ns : List Nat) :
    ∀ (g : G) (f : Frame) (c : Connector),
      (MapEntryImpl.wireIns g f c ns).2.nodeIds = f.nodeIds := by
  induction ns with
  | nil => intro g f c; rfl
  | cons n ns ih =>
    intro g f c
    unfold MapEntryImpl.wireIns
    split
    · exact ih g f c
    · rw [ih]

theorem flushQueue_edges_mono (qs : List (Connector × Connector × String)) :
    ∀ (g : G) (f : Frame) (rest : List Frame) (e : MEdge), e ∈ f.edges →
      e ∈ (MapEntryImpl.flushQueue g f rest qs).2.1.edges := by
  induction qs with
  | nil => intro g f rest e he; exact he
  | cons q qs ih =>
    intro g f rest e he
    obtain ⟨frm, toC, v⟩ := q
    unfold MapEntryImpl.flushQueue
    split
    · exact ih g f rest e he
    · exact ih _ _ _ e (by simp [MapEntryImpl.routeOut, he])

theorem wireIns_edges_mono (ns : List Nat) :
    ∀ (g : G) (f : Frame) (c : Connector) (e : MEdge), e ∈ f.edges →
      e ∈ (MapEntryImpl.wireIns g f c ns).2.edges := by
  induction ns with
  | nil => intro g f c e he; exact he
  | cons n ns ih =>
    intro g f c e he
    unfold MapEntryImpl.wireIns
    split
    · exact ih g f c e he
    · exact ih _ _ _ e (by simp [he])

theorem wireOuts_edges_mono (ns : List Nat) :
    ∀ (g : G) (f : Frame) (c : Connector) (e : MEdge), e ∈ f.edges →
      e ∈ (MapEntryImpl.wireOuts g f c ns).2.edges := by
  induction ns with
  | nil => intro g f c e he; exact he
  | cons n ns ih =>
    intro g f c e he
    unfold MapEntryImpl.wireOuts
    split
    · exact ih g f c e he
    · exact ih _ _ _ e (by simp [he])

theorem hasIncoming_of_mem (f : Frame) (n : Nat) (e : MEdge)
    (he : e ∈ f.edges) (hd : e.dst.parent = n) : hasIncoming f n = true :=
  List.any_eq_true.mpr ⟨e, he, by simp [hd]⟩

theorem hasOutgoing_of_mem (f : Frame) (n : Nat) (e : MEdge)
    (he : e ∈ f.edges) (hs : e.src.parent = n) : hasOutgoing f n = true :=
  List.any_eq_true.mpr ⟨e, he, by simp [hs]⟩

theorem exists_of_hasIncoming (f : Frame) (n : Nat) (h : hasIncoming f n = true) :
    ∃ e ∈ f.edges, e.dst.parent = n := by
  simpa [hasIncoming] using h

theorem exists_of_hasOutgoing (f : Frame) (n : Nat) (h : hasOutgoing f n = true) :
    ∃ e ∈ f.edges, e.src.parent = n := by
  simpa [hasOutgoing] using h

/-- Soundness of the incoming auto-wiring loop: every listed node that is
not an exit-kind node has an incoming edge afterwards. -/
theorem wireIns_sound (c : Connector) (ns : List Nat) :
    ∀ (g : G) (f : Frame) (n : Nat), n ∈ ns →
      tyOf g n ≠ NType.consumeExit → tyOf g n ≠ NType.mapExit →
      hasIncoming (MapEntryImpl.wireIns g f c ns).2 n = true := by
  induction ns with
  | nil => intro g f n h _ _; cases h
  | cons m ms ih =>
    intro g f n hmem h1 h2
    unfold MapEntryImpl.wireIns
    rcases List.mem_cons.mp hmem with heq | hmem2
    · subst heq
      split
      · rename_i hcond
        rcases hcond with hin | hty | hty
        · obtain ⟨e, he, hd⟩ := exists_of_hasIncoming f n hin
          exact hasIncoming_of_mem _ n e (wireIns_edges_mono ms _ _ _ e he) hd
        · exact absurd hty h1
        · exact absurd hty h2
      · have he : MEdge.mk c (Connector.nullOn n) false
            ∈ ({ f with edges := f.edges
                  ++ [MEdge.mk c (Connector.nullOn n) false] } : Frame).edges := by
          simp
        exact hasIncoming_of_mem _ n _ (wireIns_edges_mono ms _ _ _ _ he) rfl
    · split
      · exact ih g f n hmem2 h1 h2
      · exact ih _ _ n hmem2 (by rw [tyOf_addInConnector]; exact h1)
          (by rw [tyOf_addInConnector]; exact h2)

/-- Soundness of the outgoing auto-wiring loop. -/
theorem wireOuts_sound (c : Connector) (ns : List Nat) :
    ∀ (g : G) (f : Frame) (n : Nat), n ∈ ns →
      tyOf g n ≠ NType.consumeEntry → tyOf g n ≠ NType.mapEntry →
      hasOutgoing (MapEntryImpl.wireOuts g f c ns).2 n = true := by
  induction ns with
  | nil => intro g f n h _ _; cases h
  | cons m ms ih =>
    intro g f n hmem h1 h2
    unfold MapEntryImpl.wireOuts
    rcases List.mem_cons.mp hmem with heq | hmem2
    · subst heq
      split
      · rename_i hcond
        rcases hcond with hout | hty | hty
        · obtain ⟨e, he, hs⟩ := exists_of_hasOutgoing f n hout
          exact hasOutgoing_of_mem _ n e (wireOuts_edges_mono ms _ _ _ e he) hs
        · exact absurd hty h1
        · exact absurd hty h2
      · have he : MEdge.mk (Connector.nullOn n) c false
            ∈ ({ f with edges := f.edges
                  ++ [MEdge.mk (Connector.nullOn n) c false] } : Frame).edges := by
          simp
        exact hasOutgoing_of_mem _ n _ (wireOuts_edges_mono ms _ _ _ _ he) rfl
    · split
      · exact ih g f n hmem2 h1 h2
      · exact ih _ _ n hmem2 (by rw [tyOf_addOutConnector]; exact h1)
          (by rw [tyOf_addOutConnector]; exact h2)

theorem tyOf_wireOuts (ns : List Nat) :
    ∀ (g : G) (f : Frame) (c : Connector) (m : Nat),
      tyOf (MapEntryImpl.wireOuts g f c ns).1 m = tyOf g m := by
  induction ns with
  | nil => intro g f c m; rfl
  | cons n ns ih =>
    intro g f c m
    unfold MapEntryImpl.wireOuts
    split
    · exact ih g f c m
    · rw [ih, tyOf_addOutConnector]

theorem close_pipeline_incoming (gS : G) (fS : Frame) (rest : List Frame)
    (en ex : Connector) (n : Nat) (hn : n ∈ fS.nodeIds)
    (h1 : tyOf gS n ≠ NType.consumeExit) (h2 : tyOf gS n ≠ NType.mapExit) :
    hasIncoming (closeWireOuts ex (closeWireIns en (closeFlush gS fS rest))).2 n = true := by
  have hfn : (closeFlush gS fS rest).2.1.nodeIds = fS.nodeIds :=
    flushQueue_nodeIds _ _ _ _
  have ht : tyOf (closeFlush gS fS rest).1 n = tyOf gS n :=
    tyOf_flushQueue _ _ _ _ _
  have hin := wireIns_sound en (closeFlush gS fS rest).2.1.nodeIds
    (closeFlush gS fS rest).1 (closeFlush gS fS rest).2.1 n
    (by rw [hfn]; exact hn) (by rw [ht]; exact h1) (by rw [ht]; exact h2)
  obtain ⟨e, he, hd⟩ := exists_of_hasIncoming _ n hin
  exact hasIncoming_of_mem _ n e (wireOuts_edges_mono _ _ _ _ e he) hd

theorem close_pipeline_outgoing (gS : G) (fS : Frame) (rest : List Frame)
    (en ex : Connector) (n : Nat) (hn : n ∈ fS.nodeIds)
    (h1 : tyOf gS n ≠ NType.consumeEntry) (h2 : tyOf gS n ≠ NType.mapEntry) :
    hasOutgoing (closeWireOuts ex (closeWireIns en (closeFlush gS fS rest))).2 n = true := by
  have hfn : (closeFlush gS fS rest).2.1.nodeIds = fS.nodeIds :=
    flushQueue_nodeIds _ _ _ _
  have hwn : (closeWireIns en (closeFlush gS fS rest)).2.nodeIds = fS.nodeIds := by
    rw [show (closeWireIns en (closeFlush gS fS rest)).2.nodeIds
        = (closeFlush gS fS rest).2.1.nodeIds from wireIns_nodeIds _ _ _ _, hfn]
  have ht : tyOf (closeWireIns en (closeFlush gS fS rest)).1 n = tyOf gS n := by
    rw [show tyOf (closeWireIns en (closeFlush gS fS rest)).1 n
        = tyOf (closeFlush gS fS rest).1 n from tyOf_wireIns _ _ _ _ _]
    exact tyOf_flushQueue _ _ _ _ _
  exact wireOuts_sound ex _ _ _ n (by rw [hwn]; exact hn)
    (by rw [ht]; exact h1) (by rw [ht]; exact h2)

theorem close_pipeline_edges_mono (gS : G) (fS : Frame) (rest : List Frame)
    (en ex : Connector) (e : MEdge) (he : e ∈ fS.edges) :
    e ∈ (closeWireOuts ex (closeWireIns en (closeFlush gS fS rest))).2.edges :=
  wireOuts_edges_mono _ _ _ _ e
    (wireIns_edges_mono _ _ _ _ e (flushQueue_edges_mono _ _ _ _ e he))

--------------------------------------------------------------------------------
-- C5
--------------------------------------------------------------------------------

/-- C5: after `connectDanglingNodes` on a Map/Consume scope, every node
contained in the scope has an incoming edge within the scope unless it is
an exit-kind node, and an outgoing edge unless it is an entry-kind node;
and the entry and exit are connected by an edge between null-named
connectors. -/
theorem C5_scope_closure_completeness (g : G) (f : Frame) (rest : List Frame)
    (n : Nat) (hn : n ∈ f.nodeIds) :
    (tyOf g n ≠ NType.consumeExit → tyOf g n ≠ NType.mapExit →
      hasIncoming (MapEntryImpl.connectDanglingNodes g f rest).2.1 n = true)
    ∧ (tyOf g n ≠ NType.consumeEntry → tyOf g n ≠ NType.mapEntry →
      hasOutgoing (MapEntryImpl.connectDanglingNodes g f rest).2.1 n = true)
    ∧ MEdge.mk (Connector.nullOn f.entryId) (Connector.nullOn f.exitId) false
        ∈ (MapEntryImpl.connectDanglingNodes g f rest).2.1.edges := by
  refine ⟨?_, ?_, ?_⟩
  · intro h1 h2
    exact close_pipeline_incoming _ _ rest _ _ n hn
      (by rw [tyOf_addOutConnector, tyOf_addOutConnector]; exact h1)
      (by rw [tyOf_addOutConnector, tyOf_addOutConnector]; exact h2)
  · intro h1 h2
    exact close_pipeline_outgoing _ _ rest _ _ n hn
      (by rw [tyOf_addOutConnector, tyOf_addOutConnector]; exact h1)
      (by rw [tyOf_addOutConnector, tyOf_addOutConnector]; exact h2)
  · exact close_pipeline_edges_mono _ _ rest _ _ _ (by simp)

/-- Witness for C5 at the concrete two-map scenario: the tasklet node of
the inner map is wired on both sides after the close, and the null edge is
present. -/
theorem C5_scope_closure_completeness_witness :
    (0 : Nat) ∈ c2Inner.nodeIds
    ∧ hasIncoming (MapEntryImpl.connectDanglingNodes c2G c2Inner [c2Outer, c2State]).2.1 0 = true
    ∧ hasOutgoing (MapEntryImpl.connectDanglingNodes c2G c2Inner [c2Outer, c2State]).2.1 0 = true
    ∧ MEdge.mk (Connector.nullOn c2Inner.entryId) (Connector.nullOn c2Inner.exitId) false
        ∈ (MapEntryImpl.connectDanglingNodes c2G c2Inner [c2Outer, c2State]).2.1.edges := by
  have h := C5_scope_closure_completeness c2G c2Inner [c2Outer, c2State] 0 (by decide)
  exact ⟨by decide, h.1 (by decide) (by decide), h.2.1 (by decide) (by decide), h.2.2⟩

/-- C7 counterexample: looking up a value with no producer and no data
container (a block argument, `alloc = none`) on a `State` scope is NOT
fatal and NOT reported: no diagnostic is emitted, an Access node named
after the value's textual name is silently synthesized, and translation
continues with its out connector — the error is silently recovered. -/
theorem C7_counterexample_missing_lookup_silently_recovered :
    (ScopeNode.lookup c1G [c1State] c1V).2.1.errs = 0
    ∧ (ScopeNode.lookup c1G [c1State] c1V).2.1.store.length = 1
    ∧ (ScopeNode.lookup c1G [c1State] c1V).1.data = "v0"
    ∧ tyOf (ScopeNode.lookup c1G [c1State] c1V).2.1 0 = NType.access := by
  refine ⟨?_, ?_, ?_, ?_⟩ <;> decide
